import Mathlib

/-
Verification of the Model Governance Control Plane of the miqai repository
against its natural-language specification.

The development shallowly embeds the governance components:

* the drift detection service (`checkDrift`, after
  `DriftDetectionService.check_drift` and `_calculate_kl_divergence` in
  src/video-ai-system/docs/drift_detection_design.md);
* the model registry lifecycle state machine (register / transition with an
  allowed edge set, modelled from the specification, section 4.1, since the
  repository contains only design-level prose for it);
* the comparison verdict rule (modelled from the specification, section 4.3);
* the safety guard / adaptation controller step relation with cooldown
  hysteresis (modelled from the specification, section 4.5);
* the inference router fallback override (modelled from the specification,
  section 4.4);
* the SafetyGuard fallback wrapper (after the `SafetyGuard` class in
  src/unnamed/part_007).

Numeric quantities are embedded as rationals so every definition is
executable; the statistical library calls (PCA fitting, kernel density
estimation) made by the drift service are external collaborators
(scikit-learn) and are represented by an abstract backend structure, exactly
as the service treats them: opaque fitted objects applied to sample lists.
-/

namespace Miqai

/-! ## Drift detection service

Embedding of `DriftDetectionService` from
src/video-ai-system/docs/drift_detection_design.md (lines 287-326).
The service fetches two windows of embedding vectors, fits a PCA projection
on the reference window, transforms both windows, fits a kernel density
estimator on each transformed window, and scores the mean log-likelihood
ratio over the reference samples. -/

/-- An embedding vector, as the service receives it from the vector store. -/
abbrev Embedding := List ℚ

/-- The external statistical library (scikit-learn) used by the service.
`pcaFit` is `PCA().fit` on a sample list, returning the fitted linear
transform (so `fit_transform xs = (pcaFit xs) <$> xs`); `kdeLogDensity` is
`KernelDensity(kernel=gaussian).fit` on a sample list followed by
`score_samples`, returning the fitted log-density function. Both are
external collaborators, represented abstractly. -/
structure KDEBackend where
  pcaFit : List Embedding → (Embedding → Embedding)
  kdeLogDensity : List Embedding → (Embedding → ℚ)

/-- Arithmetic mean of a list, `np.mean`. -/
def mean (xs : List ℚ) : ℚ := xs.sum / (xs.length : ℚ)

/-- Embedding of `DriftDetectionService._calculate_kl_divergence`:
fit a KDE on each sample set, evaluate both log-densities at the first
sample set, and return the mean difference. -/
def calculateKlDivergence (b : KDEBackend) (pSamples qSamples : List Embedding) : ℚ :=
  let logP := pSamples.map (b.kdeLogDensity pSamples)
  let logQ := pSamples.map (b.kdeLogDensity qSamples)
  mean (List.zipWith (fun a c => a - c) logP logQ)

/-- The dictionary returned by `check_drift`: `drift_detected`,
`kl_divergence`, and the optional `message` key (present only in the
insufficient-data branch). -/
structure DriftResult where
  driftDetected : Bool
  klDivergence : ℚ
  message : Option String
deriving DecidableEq, Repr

/-- Embedding of `DriftDetectionService.check_drift` (the windows are given
directly as the fetched embedding batches): if either batch is empty, return
the fixed insufficient-data dictionary; otherwise fit PCA on the reference
batch, transform both batches, compute the KL score, and compare it with the
configured threshold. -/
def checkDrift (b : KDEBackend) (driftThreshold : ℚ)
    (refEmbeddings compEmbeddings : List Embedding) : DriftResult :=
  if refEmbeddings.length = 0 ∨ compEmbeddings.length = 0 then
    { driftDetected := false, klDivergence := 0,
      message := some "Not enough data for comparison." }
  else
    let proj := b.pcaFit refEmbeddings
    let refPca := refEmbeddings.map proj
    let compPca := compEmbeddings.map proj
    let kl := calculateKlDivergence b refPca compPca
    { driftDetected := decide (kl > driftThreshold), klDivergence := kl,
      message := none }

/-- The drift score as the specification words it (section 4.2): the
expected log-likelihood ratio over reference samples, the densities being
KDEs fitted to reference and comparison windows after both are projected
with a PCA projection fitted on the reference window. -/
def driftScoreSpec (b : KDEBackend) (refEmbeddings compEmbeddings : List Embedding) : ℚ :=
  let proj := b.pcaFit refEmbeddings
  let refPca := refEmbeddings.map proj
  let compPca := compEmbeddings.map proj
  mean (refPca.map (fun x => b.kdeLogDensity refPca x - b.kdeLogDensity compPca x))

/-- A trivial concrete backend instance, used to evaluate the service on
concrete windows. -/
def constBackend : KDEBackend where
  pcaFit := fun _ => id
  kdeLogDensity := fun _ _ => 0

theorem zipWith_sub_map_map (f g : α → ℚ) (l : List α) :
    List.zipWith (fun a c => a - c) (l.map f) (l.map g)
      = l.map (fun x => f x - g x) := by
  induction l with
  | nil => rfl
  | cons x xs ih => simp [ih]

/-- C1. The specification claims that whenever either window holds fewer
samples than a configured minimum sample count, `check_drift` answers
`drift_detected = false` with `message = "insufficient_data"` and no score.
The code has no configured minimum: windows of three samples (below the
scenario minimum of thirty) take the scoring branch and carry no message at
all, and the guarded branch (taken only for an empty window) uses the
message text "Not enough data for comparison." while still reporting the
score value 0. -/
theorem check_drift_min_samples_counterexample :
    ([[(0 : ℚ)], [0], [0]] : List Embedding).length < 30 ∧
    (checkDrift constBackend (1 / 10) [[(0 : ℚ)], [0], [0]]
        [[(0 : ℚ)], [0], [0]]).message ≠ some "insufficient_data" ∧
    (checkDrift constBackend (1 / 10) [[(0 : ℚ)], [0], [0]]
        [[(0 : ℚ)], [0], [0]]).message = none ∧
    (checkDrift constBackend (1 / 10) ([] : List Embedding)
        ([] : List Embedding)).message = some "Not enough data for comparison." := by
  refine ⟨by decide, ?_, ?_, ?_⟩ <;> decide

/-- C1 (amended). `check_drift` returns `drift_detected = false` together
with the message "Not enough data for comparison." and a reported score of 0
exactly when the reference batch or the comparison batch is empty; the KDE
based score is not computed in that branch. -/
theorem check_drift_insufficient_data (b : KDEBackend) (threshold : ℚ)
    (refE compE : List Embedding) (h : refE = [] ∨ compE = []) :
    checkDrift b threshold refE compE =
      { driftDetected := false, klDivergence := 0,
        message := some "Not enough data for comparison." } := by
  rcases h with h | h <;> simp [checkDrift, h]

theorem check_drift_insufficient_data_witness :
    checkDrift constBackend (1 / 10) ([] : List Embedding) [[(1 : ℚ)]] =
      { driftDetected := false, klDivergence := 0,
        message := some "Not enough data for comparison." } :=
  check_drift_insufficient_data constBackend (1 / 10) [] [[(1 : ℚ)]] (Or.inl rfl)

/-- C6. For windows holding at least the minimum number of samples the code
requires (the code computes a score for any two non-empty batches), the
returned score equals the mean, over the PCA-projected reference samples, of
the fitted reference log-density minus the fitted comparison log-density,
both densities fitted after projecting with the PCA transform fitted on the
reference window; drift is flagged exactly when that score strictly exceeds
the configured threshold. -/
theorem check_drift_score_formula (b : KDEBackend) (threshold : ℚ)
    (refE compE : List Embedding) (h1 : refE ≠ []) (h2 : compE ≠ []) :
    (checkDrift b threshold refE compE).klDivergence = driftScoreSpec b refE compE ∧
    ((checkDrift b threshold refE compE).driftDetected = true ↔
      driftScoreSpec b refE compE > threshold) := by
  have hr : refE.length ≠ 0 := by simpa using h1
  have hc : compE.length ≠ 0 := by simpa using h2
  have hscore : (checkDrift b threshold refE compE).klDivergence
      = driftScoreSpec b refE compE := by
    simp only [checkDrift, driftScoreSpec, calculateKlDivergence, hr, hc,
      or_self, if_false, zipWith_sub_map_map]
  refine ⟨hscore, ?_⟩
  simp only [checkDrift, driftScoreSpec, calculateKlDivergence, hr, hc,
    or_self, if_false, zipWith_sub_map_map] at *
  simp [decide_eq_true_iff]

theorem check_drift_score_formula_witness :
    (checkDrift constBackend (1 / 10) [[(1 : ℚ)], [2]] [[(3 : ℚ)]]).klDivergence
        = driftScoreSpec constBackend [[(1 : ℚ)], [2]] [[(3 : ℚ)]] ∧
    ((checkDrift constBackend (1 / 10) [[(1 : ℚ)], [2]] [[(3 : ℚ)]]).driftDetected = true ↔
      driftScoreSpec constBackend [[(1 : ℚ)], [2]] [[(3 : ℚ)]] > 1 / 10) :=
  check_drift_score_formula constBackend (1 / 10) [[(1 : ℚ)], [2]] [[(3 : ℚ)]]
    (by decide) (by decide)

/-- C7. Calling the drift check with the reference window and the comparison
window both equal to the same non-empty sample set yields a drift score of
exactly 0 (the two fitted density estimates coincide, so every
log-likelihood-ratio term vanishes), and drift is not detected for any
positive threshold. -/
theorem check_drift_identical_windows (b : KDEBackend) (threshold : ℚ)
    (s : List Embedding) (hs : s ≠ []) (hpos : 0 < threshold) :
    (checkDrift b threshold s s).klDivergence = 0 ∧
    (checkDrift b threshold s s).driftDetected = false := by
  have hl : s.length ≠ 0 := by simpa using hs
  have hzero : calculateKlDivergence b (s.map (b.pcaFit s)) (s.map (b.pcaFit s)) = 0 := by
    simp only [calculateKlDivergence, zipWith_sub_map_map, sub_self, mean, div_eq_zero_iff]
    left
    apply List.sum_eq_zero
    intro x hx
    rcases List.mem_map.1 hx with ⟨y, _, hy⟩
    exact hy.symm
  constructor
  · simp only [checkDrift, hl, or_self, if_false]
    exact hzero
  · simp only [checkDrift, hl, or_self, if_false]
    simp [hzero, decide_eq_true_iff]
    exact le_of_lt hpos

theorem check_drift_identical_windows_witness :
    (checkDrift constBackend (1 / 10) [[(5 : ℚ)], [7]] [[(5 : ℚ)], [7]]).klDivergence = 0 ∧
    (checkDrift constBackend (1 / 10) [[(5 : ℚ)], [7]] [[(5 : ℚ)], [7]]).driftDetected = false :=
  check_drift_identical_windows constBackend (1 / 10) [[(5 : ℚ)], [7]]
    (by decide) (by norm_num)

/-! ## Model registry lifecycle state machine

Modelled from the spec: the repository describes the registry only at design
level (src/unnamed/part_006 lists the lifecycle states, the specification
section 4.1 gives the operations), with no implementation under src. The
model follows the words of section 4.1: `register` creates a version in
REGISTERED and fails with DuplicateVersionError on an existing
(model_name, version) pair; `transition` validates the requested edge
against the allowed edge set, treats a request whose target equals the
current state as an idempotent no-op (section 8), and on a transition to
PRODUCTION demotes the prior PRODUCTION version of the same model name to
ARCHIVED inside the same operation. -/

/-- Lifecycle states of a model version (src/unnamed/part_006, section 3.4,
plus REJECTED from the specification edge set). -/
inductive MState
  | REGISTERED
  | SHADOWING
  | CANARY
  | PRODUCTION
  | REJECTED
  | ARCHIVED
deriving DecidableEq, Repr

/-- A registry record: model name, monotone version number, lifecycle
state. -/
structure ModelVersion where
  modelName : String
  version : Nat
  state : MState
deriving DecidableEq, Repr

/-- The durable registry content: the list of all records. -/
abbrev Registry := List ModelVersion

/-- Errors of the registry operations (specification section 7). -/
inductive RegError
  | DuplicateVersionError
  | InvalidTransitionError
  | NotFoundError
deriving DecidableEq, Repr

/-- Modelled from the spec: the allowed edge set
REGISTERED to SHADOWING, SHADOWING to CANARY, CANARY to PRODUCTION,
CANARY to REJECTED, and any state to ARCHIVED. -/
def allowedEdge : MState → MState → Bool
  | .REGISTERED, .SHADOWING => true
  | .SHADOWING, .CANARY => true
  | .CANARY, .PRODUCTION => true
  | .CANARY, .REJECTED => true
  | _, .ARCHIVED => true
  | _, _ => false

/-- Record selector for a (model_name, version) key. -/
def keyMatch (name : String) (ver : Nat) (v : ModelVersion) : Bool :=
  decide (v.modelName = name ∧ v.version = ver)

/-- Modelled from the spec: `register` creates a new version in REGISTERED
and fails with DuplicateVersionError when the (model_name, version) pair
already exists. -/
def register (reg : Registry) (name : String) (ver : Nat) :
    Except RegError (ModelVersion × Registry) :=
  if reg.any (keyMatch name ver) = true then
    .error .DuplicateVersionError
  else
    let r : ModelVersion := { modelName := name, version := ver, state := .REGISTERED }
    .ok (r, reg ++ [r])

/-- The atomic swap applied on a transition to PRODUCTION: the chosen
version becomes PRODUCTION and, in the same pass, any other PRODUCTION
version of the same model name becomes ARCHIVED. -/
def promoteMap (name : String) (ver : Nat) (v : ModelVersion) : ModelVersion :=
  if v.modelName = name then
    if v.version = ver then { v with state := .PRODUCTION }
    else if v.state = .PRODUCTION then { v with state := .ARCHIVED }
    else v
  else v

/-- Modelled from the spec: `transition` looks the version up (NotFoundError
when absent), returns the unchanged record when the target equals the
current state (idempotent no-op per section 8), validates the edge against
`allowedEdge` (InvalidTransitionError otherwise), and applies either the
atomic PRODUCTION swap or a plain state update. -/
def transition (reg : Registry) (name : String) (ver : Nat) (target : MState) :
    Except RegError (ModelVersion × Registry) :=
  match reg.find? (keyMatch name ver) with
  | none => .error .NotFoundError
  | some cur =>
    if cur.state = target then
      .ok (cur, reg)
    else if allowedEdge cur.state target = true then
      if target = .PRODUCTION then
        .ok ({ cur with state := .PRODUCTION }, reg.map (promoteMap name ver))
      else
        .ok ({ cur with state := target },
          reg.map (fun v => if keyMatch name ver v = true then { v with state := target } else v))
    else
      .error .InvalidTransitionError

/-- Registry contents reachable from the empty registry by successful
register and transition operations. -/
inductive Reachable : Registry → Prop
  | init : Reachable []
  | registerStep (s : Registry) (name : String) (ver : Nat) (r : ModelVersion)
      (s2 : Registry) : Reachable s → register s name ver = .ok (r, s2) → Reachable s2
  | transitionStep (s : Registry) (name : String) (ver : Nat) (target : MState)
      (r : ModelVersion) (s2 : Registry) : Reachable s →
      transition s name ver target = .ok (r, s2) → Reachable s2

/-- Number of PRODUCTION versions of a model name. -/
def prodCount (reg : Registry) (name : String) : Nat :=
  reg.countP (fun v => decide (v.modelName = name ∧ v.state = .PRODUCTION))

/-- Number of records for a (model_name, version) key. -/
def keyCount (reg : Registry) (name : String) (ver : Nat) : Nat :=
  reg.countP (keyMatch name ver)

/-- The maintained registry invariant: per model name at most one
PRODUCTION version, and per (model_name, version) key at most one
record. -/
def RegistryInv (reg : Registry) : Prop :=
  (∀ name, prodCount reg name ≤ 1) ∧ (∀ name ver, keyCount reg name ver ≤ 1)

theorem two_le_countP {p : ModelVersion → Bool} {l : List ModelVersion}
    {a c : ModelVersion} (ha : a ∈ l) (hc : c ∈ l) (hne : a ≠ c)
    (hpa : p a = true) (hpc : p c = true) : 2 ≤ l.countP p := by
  induction l with
  | nil => cases ha
  | cons x xs ih =>
    rcases List.mem_cons.1 ha with rfl | ha2
    · rcases List.mem_cons.1 hc with rfl | hc2
      · exact absurd rfl hne
      · have h1 : 0 < xs.countP p := List.countP_pos_iff.2 ⟨c, hc2, hpc⟩
        rw [List.countP_cons]
        simp only [hpa, if_true]
        omega
    · rcases List.mem_cons.1 hc with rfl | hc2
      · have h1 : 0 < xs.countP p := List.countP_pos_iff.2 ⟨a, ha2, hpa⟩
        rw [List.countP_cons]
        simp only [hpc, if_true]
        omega
      · have h1 := ih ha2 hc2
        rw [List.countP_cons]
        omega

theorem register_ok_cases (reg : Registry) (name : String) (ver : Nat)
    (r : ModelVersion) (reg2 : Registry)
    (h : register reg name ver = .ok (r, reg2)) :
    reg.any (keyMatch name ver) = false ∧
    r = { modelName := name, version := ver, state := .REGISTERED } ∧
    reg2 = reg ++ [r] := by
  unfold register at h
  by_cases hc : reg.any (keyMatch name ver) = true
  · rw [if_pos hc] at h; cases h
  · rw [if_neg hc] at h
    simp only [Except.ok.injEq, Prod.mk.injEq] at h
    exact ⟨Bool.eq_false_iff.2 hc, h.1.symm, by rw [← h.2, h.1]⟩

theorem transition_ok_cases (reg : Registry) (name : String) (ver : Nat)
    (target : MState) (r : ModelVersion) (reg2 : Registry)
    (h : transition reg name ver target = .ok (r, reg2)) :
    ∃ cur, reg.find? (keyMatch name ver) = some cur ∧
      ((cur.state = target ∧ r = cur ∧ reg2 = reg) ∨
       (cur.state ≠ target ∧ allowedEdge cur.state target = true ∧
         target = .PRODUCTION ∧ r = { cur with state := .PRODUCTION } ∧
         reg2 = reg.map (promoteMap name ver)) ∨
       (cur.state ≠ target ∧ allowedEdge cur.state target = true ∧
         target ≠ .PRODUCTION ∧ r = { cur with state := target } ∧
         reg2 = reg.map
           (fun v => if keyMatch name ver v = true then { v with state := target } else v))) := by
  unfold transition at h
  split at h
  · cases h
  · rename_i cur hfind
    refine ⟨cur, hfind, ?_⟩
    by_cases h1 : cur.state = target
    · rw [if_pos h1] at h
      simp only [Except.ok.injEq, Prod.mk.injEq] at h
      exact Or.inl ⟨h1, h.1.symm, h.2.symm⟩
    · by_cases h2 : allowedEdge cur.state target = true
      · by_cases h3 : target = MState.PRODUCTION
        · subst h3
          rw [if_neg h1, if_pos h2, if_pos rfl] at h
          simp only [Except.ok.injEq, Prod.mk.injEq] at h
          exact Or.inr (Or.inl ⟨h1, h2, rfl, h.1.symm, h.2.symm⟩)
        · rw [if_neg h1, if_pos h2, if_neg h3] at h
          simp only [Except.ok.injEq, Prod.mk.injEq] at h
          exact Or.inr (Or.inr ⟨h1, h2, h3, h.1.symm, h.2.symm⟩)
      · rw [if_neg h1, if_neg h2] at h
        cases h

theorem keyCount_map_state (reg : Registry) (f : ModelVersion → ModelVersion)
    (hf : ∀ v, (f v).modelName = v.modelName ∧ (f v).version = v.version)
    (name : String) (ver : Nat) :
    keyCount (reg.map f) name ver = keyCount reg name ver := by
  unfold keyCount
  rw [List.countP_map]
  apply List.countP_congr
  intro v _
  simp [keyMatch, Function.comp, (hf v).1, (hf v).2]

theorem promoteMap_fields (name : String) (ver : Nat) (v : ModelVersion) :
    (promoteMap name ver v).modelName = v.modelName ∧
    (promoteMap name ver v).version = v.version := by
  unfold promoteMap
  by_cases h1 : v.modelName = name
  · by_cases h2 : v.version = ver
    · simp [h1, h2]
    · by_cases h3 : v.state = MState.PRODUCTION
      · simp [h1, h2, h3]
      · simp [h1, h2, h3]
  · simp [h1]

theorem prodCount_promote (reg : Registry) (name : String) (ver : Nat) :
    prodCount (reg.map (promoteMap name ver)) name = keyCount reg name ver := by
  unfold prodCount keyCount
  rw [List.countP_map]
  apply List.countP_congr
  intro v _
  simp only [Function.comp_apply, keyMatch]
  unfold promoteMap
  by_cases h1 : v.modelName = name
  · by_cases h2 : v.version = ver
    · simp [h1, h2]
    · by_cases h3 : v.state = MState.PRODUCTION
      · simp [h1, h2, h3]
      · simp [h1, h2, h3]
  · simp [h1]

theorem prodCount_promote_other (reg : Registry) (name : String) (ver : Nat)
    (name2 : String) (h : name2 ≠ name) :
    prodCount (reg.map (promoteMap name ver)) name2 = prodCount reg name2 := by
  unfold prodCount
  rw [List.countP_map]
  apply List.countP_congr
  intro v _
  simp only [Function.comp_apply]
  unfold promoteMap
  have hne2 : name ≠ name2 := fun hh => h hh.symm
  by_cases h1 : v.modelName = name
  · by_cases h2 : v.version = ver
    · simp [h1, h2, hne2]
    · by_cases h3 : v.state = MState.PRODUCTION
      · simp [h1, h2, h3, hne2]
      · simp [h1, h2, h3]
  · simp [h1]

theorem prodCount_set_state_le (reg : Registry) (name : String) (ver : Nat)
    (target : MState) (ht : target ≠ MState.PRODUCTION) (name2 : String) :
    prodCount (reg.map
        (fun v => if keyMatch name ver v = true then { v with state := target } else v)) name2
      ≤ prodCount reg name2 := by
  unfold prodCount
  rw [List.countP_map]
  apply List.countP_mono_left
  intro v _ hv
  simp only [Function.comp_apply] at hv
  by_cases hk : keyMatch name ver v = true
  · simp [hk, ht] at hv
  · simpa [hk] using hv

theorem reachable_inv (reg : Registry) (h : Reachable reg) : RegistryInv reg := by
  induction h with
  | init =>
    exact ⟨fun name => by simp [prodCount], fun name ver => by simp [keyCount]⟩
  | registerStep s name ver r s2 hs heq ih =>
    obtain ⟨hany, hr, hs2⟩ := register_ok_cases _ _ _ _ _ heq
    subst hs2
    constructor
    · intro n
      have h1 := ih.1 n
      unfold prodCount at h1 ⊢
      rw [List.countP_append]
      have : List.countP (fun v => decide (v.modelName = n ∧ v.state = .PRODUCTION)) [r] = 0 := by
        simp [hr]
      omega
    · intro n v
      have h1 := ih.2 n v
      unfold keyCount at h1 ⊢
      rw [List.countP_append]
      by_cases hk : keyMatch n v r = true
      · have hkey : n = name ∧ v = ver := by
          rw [hr] at hk
          simp [keyMatch] at hk
          exact ⟨hk.1.symm, hk.2.symm⟩
        have hzero : s.countP (keyMatch n v) = 0 := by
          rw [hkey.1, hkey.2]
          rw [List.countP_eq_zero]
          intro a ha hpa
          have : s.any (keyMatch name ver) = true := List.any_eq_true.2 ⟨a, ha, hpa⟩
          rw [this] at hany
          cases hany
        simp [hzero, List.countP_cons, hk]
      · simp only [List.countP_cons, Bool.not_eq_true] at *
        simp [hk]
        omega
  | transitionStep s name ver target r s2 hs heq ih =>
    obtain ⟨cur, hfind, hcases⟩ := transition_ok_cases _ _ _ _ _ _ heq
    rcases hcases with ⟨_, _, rfl⟩ | ⟨hne, hedge, htgt, hr, hs2⟩ | ⟨hne, hedge, htgt, hr, hs2⟩
    · exact ih
    · subst hs2
      constructor
      · intro n
        by_cases hn : n = name
        · subst hn
          rw [prodCount_promote]
          exact ih.2 n ver
        · rw [prodCount_promote_other _ _ _ _ hn]
          exact ih.1 n
      · intro n v
        rw [keyCount_map_state _ _ (promoteMap_fields name ver) n v]
        exact ih.2 n v
    · subst hs2
      constructor
      · intro n
        exact le_trans (prodCount_set_state_le s name ver target htgt n) (ih.1 n)
      · intro n v
        rw [keyCount_map_state]
        · exact ih.2 n v
        · intro v0
          by_cases hk : keyMatch name ver v0 = true
          · simp [hk]
          · simp [hk]

/-- C2. For every model name and every registry state reachable by register
and transition operations, at most one version of that name is in state
PRODUCTION; and a successful transition of a version to PRODUCTION yields,
within that single operation, a state with exactly one PRODUCTION version of
the name, the previously PRODUCTION version (if any) having been demoted to
ARCHIVED — so no interleaving point with zero or two PRODUCTION versions
exists between the demotion and the promotion. Modelled from the spec,
section 4.1. -/
theorem registry_single_production (reg : Registry) (h : Reachable reg) (name : String) :
    prodCount reg name ≤ 1 ∧
    ∀ ver r reg2, transition reg name ver .PRODUCTION = .ok (r, reg2) →
      r.state = .PRODUCTION ∧ prodCount reg2 name = 1 ∧
      ∀ v ∈ reg, v.modelName = name → v.state = .PRODUCTION → v.version ≠ ver →
        { v with state := MState.ARCHIVED } ∈ reg2 := by
  have inv := reachable_inv reg h
  refine ⟨inv.1 name, ?_⟩
  intro ver r reg2 htr
  obtain ⟨cur, hfind, hcases⟩ := transition_ok_cases _ _ _ _ _ _ htr
  have hkey : keyMatch name ver cur = true := List.find?_some hfind
  have hmem : cur ∈ reg := List.mem_of_find?_eq_some hfind
  have hkey2 : cur.modelName = name ∧ cur.version = ver := by
    simpa [keyMatch] using hkey
  rcases hcases with ⟨hst, hr, hreg⟩ | ⟨hne, hedge, _, hr, hreg⟩ | ⟨_, _, hpn, _, _⟩
  · refine ⟨by rw [hr, hst], ?_, ?_⟩
    · rw [hreg]
      have hge : 0 < prodCount reg name := by
        unfold prodCount
        exact List.countP_pos_iff.2 ⟨cur, hmem, by simp [hkey2.1, hst]⟩
      have hle := inv.1 name
      omega
    · intro v hv hvn hvp hvv
      exfalso
      have hvne : v ≠ cur := by
        intro hEq
        rw [hEq] at hvv
        exact hvv hkey2.2
      have h2 : 2 ≤ reg.countP (fun v => decide (v.modelName = name ∧ v.state = .PRODUCTION)) :=
        two_le_countP hv hmem hvne (by simp [hvn, hvp]) (by simp [hkey2.1, hst])
      have hle := inv.1 name
      unfold prodCount at hle
      omega
  · refine ⟨by rw [hr], ?_, ?_⟩
    · rw [hreg, prodCount_promote]
      have hge : 0 < keyCount reg name ver := by
        unfold keyCount
        exact List.countP_pos_iff.2 ⟨cur, hmem, hkey⟩
      have hle := inv.2 name ver
      omega
    · intro v hv hvn hvp hvv
      have hpm : promoteMap name ver v = { v with state := MState.ARCHIVED } := by
        simp [promoteMap, hvn, hvv, hvp]
      rw [hreg, ← hpm]
      exact List.mem_map_of_mem _ hv
  · exact absurd rfl hpn

theorem reachable_example :
    Reachable [{ modelName := "m", version := 1, state := MState.PRODUCTION },
      { modelName := "m", version := 2, state := MState.CANARY }] := by
  have h1 : Reachable [{ modelName := "m", version := 1, state := MState.REGISTERED }] :=
    Reachable.registerStep [] "m" 1 _ _ Reachable.init rfl
  have h2 : Reachable [{ modelName := "m", version := 1, state := MState.SHADOWING }] :=
    Reachable.transitionStep _ "m" 1 MState.SHADOWING _ _ h1 rfl
  have h3 : Reachable [{ modelName := "m", version := 1, state := MState.CANARY }] :=
    Reachable.transitionStep _ "m" 1 MState.CANARY _ _ h2 rfl
  have h4 : Reachable [{ modelName := "m", version := 1, state := MState.PRODUCTION }] :=
    Reachable.transitionStep _ "m" 1 MState.PRODUCTION _ _ h3 rfl
  have h5 : Reachable [{ modelName := "m", version := 1, state := MState.PRODUCTION },
      { modelName := "m", version := 2, state := MState.REGISTERED }] :=
    Reachable.registerStep _ "m" 2 _ _ h4 rfl
  have h6 : Reachable [{ modelName := "m", version := 1, state := MState.PRODUCTION },
      { modelName := "m", version := 2, state := MState.SHADOWING }] :=
    Reachable.transitionStep _ "m" 2 MState.SHADOWING _ _ h5 rfl
  exact Reachable.transitionStep _ "m" 2 MState.CANARY _ _ h6 rfl

theorem registry_single_production_witness :
    prodCount [{ modelName := "m", version := 1, state := MState.PRODUCTION },
      { modelName := "m", version := 2, state := MState.CANARY }] "m" ≤ 1 :=
  (registry_single_production _ reachable_example "m").1

/-- C3 counterexample. The specification also demands (section 8) that a
transition whose target equals the current state is an idempotent no-op
rather than an error, so a self edge such as SHADOWING to SHADOWING, which
lies outside the allowed edge set, nevertheless succeeds: transition does
not succeed only on allowed edges. -/
theorem transition_edge_validation_counterexample :
    transition [{ modelName := "m", version := 1, state := MState.SHADOWING }]
        "m" 1 MState.SHADOWING
      = .ok ({ modelName := "m", version := 1, state := MState.SHADOWING },
          [{ modelName := "m", version := 1, state := MState.SHADOWING }]) ∧
    allowedEdge MState.SHADOWING MState.SHADOWING = false :=
  ⟨rfl, rfl⟩

/-- C3 (amended). A transition whose target differs from the current state
succeeds only when the pair (current state, target state) lies in the
allowed edge set, and fails with InvalidTransitionError otherwise — in
particular REGISTERED to PRODUCTION is rejected; the sole further way a
transition call can succeed is the idempotent no-op whose target equals the
current state. Modelled from the spec, sections 4.1 and 8. -/
theorem transition_edge_validation (reg : Registry) (name : String) (ver : Nat)
    (target : MState) (cur : ModelVersion)
    (hfind : reg.find? (keyMatch name ver) = some cur) :
    (cur.state ≠ target → allowedEdge cur.state target = false →
      transition reg name ver target = .error .InvalidTransitionError) ∧
    (∀ r reg2, transition reg name ver target = .ok (r, reg2) →
      cur.state = target ∨ allowedEdge cur.state target = true) ∧
    (cur.state = .REGISTERED →
      transition reg name ver .PRODUCTION = .error .InvalidTransitionError) := by
  refine ⟨?_, ?_, ?_⟩
  · intro h1 h2
    simp [transition, hfind, h1, h2]
  · intro r reg2 htr
    obtain ⟨cur2, hfind2, hcases⟩ := transition_ok_cases _ _ _ _ _ _ htr
    rw [hfind] at hfind2
    injection hfind2 with hEq
    subst hEq
    rcases hcases with ⟨h1, _, _⟩ | ⟨_, h2, _, _, _⟩ | ⟨_, h2, _, _, _⟩
    · exact Or.inl h1
    · exact Or.inr h2
    · exact Or.inr h2
  · intro hreg
    simp [transition, hfind, hreg, allowedEdge]

theorem transition_edge_validation_witness :
    transition [{ modelName := "m", version := 1, state := MState.REGISTERED }]
        "m" 1 MState.PRODUCTION = .error .InvalidTransitionError :=
  (transition_edge_validation
      [{ modelName := "m", version := 1, state := MState.REGISTERED }]
      "m" 1 MState.PRODUCTION
      { modelName := "m", version := 1, state := MState.REGISTERED } rfl).2.2 rfl

/-- C4. When the found version is already in the requested target state,
transition is a no-op: it returns the current record and the unchanged
registry, raising no error. Modelled from the spec, section 8. -/
theorem transition_idempotent (reg : Registry) (name : String) (ver : Nat)
    (cur : ModelVersion) (hfind : reg.find? (keyMatch name ver) = some cur) :
    transition reg name ver cur.state = .ok (cur, reg) := by
  simp [transition, hfind]

theorem transition_idempotent_witness :
    transition [{ modelName := "m", version := 1, state := MState.CANARY }]
        "m" 1 MState.CANARY
      = .ok ({ modelName := "m", version := 1, state := MState.CANARY },
          [{ modelName := "m", version := 1, state := MState.CANARY }]) :=
  transition_idempotent [{ modelName := "m", version := 1, state := MState.CANARY }]
    "m" 1 { modelName := "m", version := 1, state := MState.CANARY } rfl

/-! ## Comparison service verdict

Modelled from the spec: the repository fixes only the canary threshold
configuration (src/unnamed/part_006, section 5); the verdict rule itself is
given by the specification, section 4.3, as a deterministic rule list
evaluated in priority order with the first match winning. -/

/-- Aggregated comparison metrics of a report. -/
structure CompMetrics where
  latencyDelta : ℚ
  errorRateDelta : ℚ
  outputSimilarity : ℚ
  sampleCount : Nat
deriving DecidableEq, Repr

/-- Configured comparison thresholds. -/
structure CompThresholds where
  rejectErrorThreshold : ℚ
  rejectLatencyThreshold : ℚ
  promoteSimilarityThreshold : ℚ
  promoteLatencyThreshold : ℚ
deriving DecidableEq, Repr

/-- The verdict of a comparison report. -/
inductive Verdict
  | PROMOTE
  | HOLD
  | REJECT
deriving DecidableEq, Repr

/-- Modelled from the spec (section 4.3), first match wins:
1. error rate delta above the reject threshold: REJECT;
2. latency delta above the reject threshold: REJECT;
3. similarity at or above the promote threshold and latency delta at or
   below the promote threshold: PROMOTE;
4. otherwise HOLD. -/
def verdict (t : CompThresholds) (m : CompMetrics) : Verdict :=
  if m.errorRateDelta > t.rejectErrorThreshold then .REJECT
  else if m.latencyDelta > t.rejectLatencyThreshold then .REJECT
  else if m.outputSimilarity ≥ t.promoteSimilarityThreshold ∧
      m.latencyDelta ≤ t.promoteLatencyThreshold then .PROMOTE
  else .HOLD

/-- C5. The verdict is a function of the metrics and thresholds alone,
evaluated in fixed priority order; whenever the error rate delta exceeds
the reject error threshold the verdict is REJECT, whatever the similarity
(even 1.0) and however thoroughly the promote conditions hold. Modelled
from the spec, section 4.3. -/
theorem verdict_reject_overrides (t : CompThresholds) (m : CompMetrics)
    (h : m.errorRateDelta > t.rejectErrorThreshold) :
    verdict t m = .REJECT := by
  simp [verdict, h]

theorem verdict_reject_overrides_witness :
    ((1 : ℚ) ≥ (9 : ℚ) / 10 ∧ (0 : ℚ) ≤ 1) ∧
    verdict
      { rejectErrorThreshold := 1 / 100, rejectLatencyThreshold := 1,
        promoteSimilarityThreshold := 9 / 10, promoteLatencyThreshold := 1 }
      { latencyDelta := 0, errorRateDelta := 2 / 100,
        outputSimilarity := 1, sampleCount := 100 } = .REJECT :=
  ⟨by norm_num,
   verdict_reject_overrides
     { rejectErrorThreshold := 1 / 100, rejectLatencyThreshold := 1,
       promoteSimilarityThreshold := 9 / 10, promoteLatencyThreshold := 1 }
     { latencyDelta := 0, errorRateDelta := 2 / 100,
       outputSimilarity := 1, sampleCount := 100 } (by norm_num)⟩

/-! ## Safety guard / adaptation controller levels

Modelled from the spec: the adaptation controller of
src/video-ai-system/docs/dynamic_adaptation_design.md exists only as a
design (rule engine, cooldown mechanism, `cooldown_seconds` configuration),
so the poll-tick step relation follows the specification, section 4.5:
escalation applies immediately, de-escalation applies only when the current
level has been held for at least `cooldown` seconds. -/

/-- Adaptation levels. -/
inductive Level
  | NORMAL
  | DEGRADED
  | CRITICAL
deriving DecidableEq, Repr

/-- Severity order of the levels. -/
def Level.rank : Level → Nat
  | .NORMAL => 0
  | .DEGRADED => 1
  | .CRITICAL => 2

/-- The process-wide adaptation state: current level and the time of the
last level transition. -/
structure AdaptationState where
  level : Level
  lastTransitionAt : Nat
deriving DecidableEq, Repr

/-- Modelled from the spec: one poll tick of the safety guard, after the
rule engine has produced the matched level. A more severe matched level is
applied immediately; a less severe one is applied only when the current
level has been held for at least `cooldown` seconds. -/
def guardStep (cooldown : Nat) (s : AdaptationState) (now : Nat) (matched : Level) :
    AdaptationState :=
  if s.level.rank < matched.rank then { level := matched, lastTransitionAt := now }
  else if matched.rank < s.level.rank then
    if s.lastTransitionAt + cooldown ≤ now then { level := matched, lastTransitionAt := now }
    else s
  else s

/-- A sequence of poll ticks, each tick paired with its wall-clock time and
the level matched by the rule engine at that tick. -/
def guardRun (cooldown : Nat) (s : AdaptationState) (ticks : List (Nat × Level)) :
    AdaptationState :=
  ticks.foldl (fun st p => guardStep cooldown st p.1 p.2) s

theorem guardStep_within_cooldown (cooldown t now : Nat) (s : AdaptationState) (m : Level)
    (hlast : t ≤ s.lastTransitionAt) (hnow : now < t + cooldown) :
    s.level.rank ≤ (guardStep cooldown s now m).level.rank := by
  unfold guardStep
  by_cases h1 : s.level.rank < m.rank
  · rw [if_pos h1]
    exact le_of_lt h1
  · rw [if_neg h1]
    by_cases h2 : m.rank < s.level.rank
    · rw [if_pos h2]
      have h3 : ¬(s.lastTransitionAt + cooldown ≤ now) := by omega
      rw [if_neg h3]
    · rw [if_neg h2]

theorem guardStep_lastTransition (cooldown t now : Nat) (s : AdaptationState) (m : Level)
    (hlast : t ≤ s.lastTransitionAt) (hnow : t ≤ now) :
    t ≤ (guardStep cooldown s now m).lastTransitionAt := by
  unfold guardStep
  by_cases h1 : s.level.rank < m.rank
  · rw [if_pos h1]; exact hnow
  · rw [if_neg h1]
    by_cases h2 : m.rank < s.level.rank
    · rw [if_pos h2]
      by_cases h3 : s.lastTransitionAt + cooldown ≤ now
      · rw [if_pos h3]; exact hnow
      · rw [if_neg h3]; exact hlast
    · rw [if_neg h2]; exact hlast

theorem guardRun_within_cooldown (cooldown t : Nat) (ticks : List (Nat × Level)) :
    ∀ s : AdaptationState, t ≤ s.lastTransitionAt →
      (∀ q ∈ ticks, t ≤ q.1 ∧ q.1 < t + cooldown) →
      t ≤ (guardRun cooldown s ticks).lastTransitionAt ∧
      s.level.rank ≤ (guardRun cooldown s ticks).level.rank := by
  induction ticks with
  | nil => intro s hs _; exact ⟨hs, le_refl _⟩
  | cons q rest ih =>
    intro s hs hticks
    have hq := hticks q (List.mem_cons_self q rest)
    have hstep1 := guardStep_within_cooldown cooldown t q.1 s q.2 hs hq.2
    have hstep2 := guardStep_lastTransition cooldown t q.1 s q.2 hs hq.1
    have hrest := ih (guardStep cooldown s q.1 q.2) hstep2
      (fun r hr => hticks r (List.mem_cons_of_mem q hr))
    exact ⟨hrest.1, le_trans hstep1 hrest.2⟩

theorem level_rank_pos_ne_normal (l : Level) (h : 0 < l.rank) : l ≠ Level.NORMAL := by
  cases l with
  | NORMAL => cases h
  | DEGRADED => intro hc; cases hc
  | CRITICAL => intro hc; cases hc

/-- C8. If a poll tick at time t escalates the guard out of NORMAL, then at
every later tick occurring strictly before t plus `cooldown` seconds, the
level never steps down — the tick does not de-escalate, whatever level the
rule engine matches (in particular when the triggering metric has already
recovered and NORMAL is matched) — and the guard is still not at NORMAL
after any such tick. Modelled from the spec, section 4.5. -/
theorem guard_hysteresis (cooldown t : Nat) (s0 : AdaptationState) (m0 : Level)
    (pre : List (Nat × Level)) (p : Nat × Level)
    (h0 : s0.level = Level.NORMAL)
    (hesc : (guardStep cooldown s0 t m0).level ≠ Level.NORMAL)
    (hticks : ∀ q ∈ pre ++ [p], t ≤ q.1 ∧ q.1 < t + cooldown) :
    (guardRun cooldown (guardStep cooldown s0 t m0) pre).level.rank ≤
      (guardStep cooldown (guardRun cooldown (guardStep cooldown s0 t m0) pre)
        p.1 p.2).level.rank ∧
    (guardStep cooldown (guardRun cooldown (guardStep cooldown s0 t m0) pre)
      p.1 p.2).level ≠ Level.NORMAL := by
  have hs1 : guardStep cooldown s0 t m0 = { level := m0, lastTransitionAt := t }
      ∧ 0 < m0.rank := by
    unfold guardStep
    by_cases h1 : s0.level.rank < m0.rank
    · rw [if_pos h1]
      refine ⟨rfl, ?_⟩
      have : s0.level.rank = 0 := by rw [h0]; rfl
      omega
    · exfalso
      apply hesc
      unfold guardStep
      rw [if_neg h1]
      by_cases h2 : m0.rank < s0.level.rank
      · have : s0.level.rank = 0 := by rw [h0]; rfl
        omega
      · rw [if_neg h2]
        exact h0
  have hpre : ∀ q ∈ pre, t ≤ q.1 ∧ q.1 < t + cooldown := by
    intro q hq
    exact hticks q (List.mem_append_left [p] hq)
  have hp : t ≤ p.1 ∧ p.1 < t + cooldown :=
    hticks p (List.mem_append_right pre (List.mem_singleton.2 rfl))
  have hlast1 : t ≤ (guardStep cooldown s0 t m0).lastTransitionAt := by
    rw [hs1.1]
  have hrun := guardRun_within_cooldown cooldown t pre
    (guardStep cooldown s0 t m0) hlast1 hpre
  have hstep := guardStep_within_cooldown cooldown t p.1
    (guardRun cooldown (guardStep cooldown s0 t m0) pre) p.2 hrun.1 hp.2
  refine ⟨hstep, ?_⟩
  apply level_rank_pos_ne_normal
  have hm0 : 0 < (guardStep cooldown s0 t m0).level.rank := by
    rw [hs1.1]
    exact hs1.2
  omega

theorem guard_hysteresis_witness :
    (guardRun 300 (guardStep 300 { level := Level.NORMAL, lastTransitionAt := 0 } 0
        Level.DEGRADED) [(10, Level.NORMAL)]).level.rank ≤
      (guardStep 300 (guardRun 300 (guardStep 300
          { level := Level.NORMAL, lastTransitionAt := 0 } 0 Level.DEGRADED)
        [(10, Level.NORMAL)]) 20 Level.NORMAL).level.rank ∧
    (guardStep 300 (guardRun 300 (guardStep 300
        { level := Level.NORMAL, lastTransitionAt := 0 } 0 Level.DEGRADED)
      [(10, Level.NORMAL)]) 20 Level.NORMAL).level ≠ Level.NORMAL :=
  guard_hysteresis 300 0 { level := Level.NORMAL, lastTransitionAt := 0 }
    Level.DEGRADED [(10, Level.NORMAL)] (20, Level.NORMAL)
    rfl (by decide) (by decide)

/-! ## Inference router

Modelled from the spec: the design document
(src/video-ai-system/docs/dynamic_adaptation_design.md, section 6.1) only
describes `get_target_model`; the specification, section 4.4, states that
at a level other than NORMAL the router overrides its registry-derived
routing table and forces all traffic onto the fallback model configured for
that level, ignoring canary weights. -/

/-- Router configuration: the fallback model configured per adaptation
level. -/
structure RouterConfig where
  fallbackModel : Level → String

/-- Walk the cumulative weights of the table. -/
def pickWeighted : Nat → List (String × Nat) → Option String
  | _, [] => none
  | n, (m, w) :: rest => if n < w then some m else pickWeighted (n - w) rest

/-- The weighted draw over the routing table, seeded per request. -/
def weightedDraw (table : List (String × Nat)) (seed : Nat) : Option String :=
  let total := (table.map Prod.snd).sum
  if total = 0 then none else pickWeighted (seed % total) table

/-- Modelled from the spec (section 4.4): at NORMAL the router draws from
the registry-derived routing table by weight; at any other level it forces
the traffic onto the fallback model configured for that level. -/
def route (cfg : RouterConfig) (table : List (String × Nat)) (level : Level)
    (seed : Nat) : Option String :=
  if level = Level.NORMAL then weightedDraw table seed
  else some (cfg.fallbackModel level)

/-- C9. When the adaptation level read by the router is not NORMAL, the
route decision is the fallback model configured for that level for every
routing table and every request seed — the registry-derived table and all
canary weights are ignored, on 100 percent of requests, for as long as the
level stays away from NORMAL. Modelled from the spec, section 4.4. -/
theorem route_fallback_override (cfg : RouterConfig) (level : Level)
    (h : level ≠ Level.NORMAL) (table : List (String × Nat)) (seed : Nat) :
    route cfg table level seed = some (cfg.fallbackModel level) := by
  simp [route, h]

theorem route_fallback_override_witness :
    route { fallbackModel := fun _ => "v4-light" }
      [("v3-balanced", 90), ("v5-candidate", 10)] Level.DEGRADED 7
      = some "v4-light" :=
  route_fallback_override { fallbackModel := fun _ => "v4-light" }
    Level.DEGRADED (by decide) [("v3-balanced", 90), ("v5-candidate", 10)] 7

/-! ## SafetyGuard fallback wrapper

Embedding of the `SafetyGuard` class of src/unnamed/part_007 (lines
100-129). Its mutable state is the `is_fallback_active` flag; the
performance and accuracy monitors are consulted through their `is_breached`
checks, whose outcome depends on wall-clock measurements, so each
`should_process` call receives the breach outcome of that call as an
input. -/

/-- The `SafetyGuard` object state. -/
structure SafetyGuard where
  isFallbackActive : Bool
deriving DecidableEq, Repr

/-- Result of one `should_process` call: the returned decision, the guard
state after the call, and whether the wrapped learned policy was invoked
during the call. -/
structure GuardCallResult where
  decision : Bool
  guard : SafetyGuard
  policyInvoked : Bool
deriving DecidableEq, Repr

/-- Embedding of `SafetyGuard.activate_fallback` (src/unnamed/part_007,
lines 125-128): it sets `is_fallback_active` to true. -/
def activateFallback (_g : SafetyGuard) : SafetyGuard :=
  { isFallbackActive := true }

/-- Embedding of `SafetyGuard.should_process` (src/unnamed/part_007, lines
110-123): with the fallback active, answer with the fallback policy and do
not touch the learned policy; otherwise run the learned policy and, when
either monitor reports a breach, activate the fallback and answer with the
fallback policy. -/
def shouldProcess (policy fallbackPolicy : α → Bool) (g : SafetyGuard)
    (breached : Bool) (features : α) : GuardCallResult :=
  if g.isFallbackActive then
    { decision := fallbackPolicy features, guard := g, policyInvoked := false }
  else
    let decision := policy features
    if breached then
      { decision := fallbackPolicy features, guard := activateFallback g,
        policyInvoked := true }
    else
      { decision := decision, guard := g, policyInvoked := true }

/-- A call on the `SafetyGuard` object: these two methods are the whole
public surface of the class. -/
inductive GuardOp (α : Type)
  | callShouldProcess (breached : Bool) (features : α)
  | callActivateFallback

/-- Running a sequence of calls against the guard state. -/
def runGuardOps (policy fallbackPolicy : α → Bool) :
    SafetyGuard → List (GuardOp α) → SafetyGuard
  | g, [] => g
  | g, GuardOp.callShouldProcess breached features :: rest =>
      runGuardOps policy fallbackPolicy
        (shouldProcess policy fallbackPolicy g breached features).guard rest
  | g, GuardOp.callActivateFallback :: rest =>
      runGuardOps policy fallbackPolicy (activateFallback g) rest

theorem runGuardOps_active (policy fallbackPolicy : α → Bool) (ops : List (GuardOp α)) :
    ∀ g : SafetyGuard, g.isFallbackActive = true →
      (runGuardOps policy fallbackPolicy g ops).isFallbackActive = true := by
  induction ops with
  | nil => intro g hg; exact hg
  | cons op rest ih =>
    intro g hg
    cases op with
    | callShouldProcess breached features =>
      have hguard : (shouldProcess policy fallbackPolicy g breached features).guard = g := by
        simp [shouldProcess, hg]
      simp only [runGuardOps, hguard]
      exact ih g hg
    | callActivateFallback =>
      simp only [runGuardOps]
      exact ih _ rfl

/-- C10. Once `is_fallback_active` is true, every `should_process` call
returns the fallback policy decision, leaves the state unchanged, and never
invokes the wrapped learned policy; and no sequence of calls on the class
ever resets the flag — the fallback, as implemented, is permanent for the
lifetime of the object rather than expiring after a cooldown. -/
theorem safety_guard_fallback_permanent (policy fallbackPolicy : α → Bool)
    (g : SafetyGuard) (hg : g.isFallbackActive = true) :
    (∀ (breached : Bool) (features : α),
      shouldProcess policy fallbackPolicy g breached features =
        { decision := fallbackPolicy features, guard := g, policyInvoked := false }) ∧
    (∀ ops : List (GuardOp α),
      (runGuardOps policy fallbackPolicy g ops).isFallbackActive = true) :=
  ⟨fun breached features => by simp [shouldProcess, hg],
   fun ops => runGuardOps_active policy fallbackPolicy ops g hg⟩

theorem safety_guard_fallback_permanent_witness :
    shouldProcess (fun _ : Nat => true) (fun _ : Nat => false)
        { isFallbackActive := true } true 5 =
      { decision := false, guard := { isFallbackActive := true },
        policyInvoked := false } ∧
    (runGuardOps (fun _ : Nat => true) (fun _ : Nat => false)
        { isFallbackActive := true }
        [GuardOp.callShouldProcess false 3,
         GuardOp.callShouldProcess true 4]).isFallbackActive = true :=
  ⟨(safety_guard_fallback_permanent (fun _ : Nat => true) (fun _ : Nat => false)
      { isFallbackActive := true } rfl).1 true 5,
   (safety_guard_fallback_permanent (fun _ : Nat => true) (fun _ : Nat => false)
      { isFallbackActive := true } rfl).2
     [GuardOp.callShouldProcess false 3, GuardOp.callShouldProcess true 4]⟩

end Miqai
